import Mathlib

/-!
Verification of the core of `skillsmp-mcp-lite` against its specification.

The development shallowly embeds the relevant source files:

* `src/zip.ts` — the in-memory ZIP builder (`crc32Table`, `crc32`,
  `buildZipBuffer`).  Node `Buffer`s are modelled as `List Nat` of byte
  values; `Buffer.writeUInt16LE` / `writeUInt32LE` are modelled by `u16le` /
  `u32le` (little-endian byte splits, valid for the in-range values Node
  accepts); JavaScript's `>>> ` and `& 0xff` on the 32-bit CRC accumulator
  are modelled by `/ 256` and `% 256` on naturals, which agree because the
  accumulator provably stays below `2 ^ 32`.
* `src/scanner/types.ts` — analyzer-name normalization.  TypeScript analyzer
  names are plain strings, so `normalizeAnalyzerName` returns
  `Option String` and `uniqueAnalyzers` models the insertion-ordered
  JavaScript `Set`.
* `src/scanner/client.ts` — the scan client.  The behaviour of the remote
  endpoint (HTTP status, body parse outcome, abort, transport error) is an
  explicit parameter of type `FetchBehaviour`; every `catch` of the source
  becomes a constructor case, so the embedding is a total function into
  `ScanResult`.
* `src/scanner/uv-resolver.ts` — the launcher resolver.  Filesystem and
  child-process probes (`existsSync`, `spawnSync candidate --version`,
  `which`/`where` output) are oracles carried in a `ResolverEnv`.
* `src/scanner/lifecycle.ts` (the unnamed lifecycle source file) — the
  sidecar supervisor.  A single call of `ensureScannerApi` is embedded as a
  state-passing function over `LifecycleState`; the outcomes of the awaited
  health checks and probes are oracles in a `LifecycleConfig`, and spawned
  processes are recorded in an output list of `SpawnRecord`s.  The slot
  `managedApiStarting` is modelled as `Option Bool`: `none` is the cleared
  slot, `some b` a stored promise that has resolved with `b` (between
  sequential calls every stored promise has settled).  Crucially, per
  JavaScript evaluation order, in `managedApiStarting = (async () => ...)()`
  the async body runs synchronously up to its first `await` *before* the
  assignment: a body that completes without awaiting (the launcher-not-found
  path) runs its `finally { managedApiStarting = null }` first and is then
  overwritten by the assignment of the already-resolved promise, so the slot
  ends up occupied; a body that suspends is assigned first and its `finally`
  clears the slot afterwards.  `autoStartAttempt` therefore reports whether
  the body completed synchronously, and `ensureScannerApi` derives the final
  slot value from that flag.
-/

/-! ## Byte-level primitives (models of Buffer.writeUInt16LE / writeUInt32LE) -/

/-- The two bytes `Buffer.writeUInt16LE` stores for an in-range value. -/
def u16le (n : Nat) : List Nat := [n % 256, n / 256 % 256]

/-- The four bytes `Buffer.writeUInt32LE` stores for an in-range value. -/
def u32le (n : Nat) : List Nat :=
  [n % 256, n / 256 % 256, n / 65536 % 256, n / 16777216 % 256]

/-- Little-endian read of two bytes at index `i` (out-of-range reads give 0). -/
def readU16 (l : List Nat) (i : Nat) : Nat :=
  l.getD i 0 + 256 * l.getD (i + 1) 0

/-- Little-endian read of four bytes at index `i` (out-of-range reads give 0). -/
def readU32 (l : List Nat) (i : Nat) : Nat :=
  l.getD i 0 + 256 * l.getD (i + 1) 0 + 65536 * l.getD (i + 2) 0 +
    16777216 * l.getD (i + 3) 0

/-! ## CRC-32 (src/zip.ts lines 7–25) -/

/-- One inner-loop step of the table construction:
`c = c & 1 ? 0xedb88320 ^ (c >>> 1) : c >>> 1`. -/
def crc32Round (c : Nat) : Nat :=
  if c % 2 = 1 then Nat.xor 0xedb88320 (c / 2) else c / 2

/-- `crc32Table[n]`: eight rounds starting from `n` (src/zip.ts lines 9–15). -/
def crc32TableEntry (n : Nat) : Nat := crc32Round^[8] n

/-- One step of the CRC loop:
`crc = crc32Table[(crc ^ buf[i]) & 0xff] ^ (crc >>> 8)` (src/zip.ts line 22). -/
def crc32Update (crc b : Nat) : Nat :=
  Nat.xor (crc32TableEntry (Nat.xor crc b % 256)) (crc / 256)

/-- `crc32(buf)`: seeded with `0xffffffff`, complemented at the end
(src/zip.ts lines 19–25). -/
def crc32 (buf : List Nat) : Nat :=
  Nat.xor (buf.foldl crc32Update 0xffffffff) 0xffffffff

/-! ## ZIP layout (src/zip.ts lines 27–93)

A `FileSet` (`Map<string, Buffer>`) is modelled as the list of its entries in
iteration order; the entry name is kept as its UTF-8 byte list (the source
converts `name` with `Buffer.from(name, "utf-8")` before any use). -/

structure ZFile where
  name : List Nat
  data : List Nat
deriving DecidableEq, Repr

/-- The 30-byte local file header (src/zip.ts lines 36–47). -/
def localHeader (f : ZFile) : List Nat :=
  u32le 0x04034b50 ++ u16le 20 ++ u16le 0 ++ u16le 0 ++ u16le 0 ++ u16le 0 ++
    u32le (crc32 f.data) ++ u32le f.data.length ++ u32le f.data.length ++
    u16le f.name.length ++ u16le 0

/-- The bytes pushed for one file in the first loop: local header, then the
name bytes, then the content bytes (src/zip.ts line 50). -/
def localChunk (f : ZFile) : List Nat := localHeader f ++ f.name ++ f.data

/-- Size of one file's local chunk; the running offset advances by this
(src/zip.ts line 51). -/
def localChunkLen (f : ZFile) : Nat := 30 + f.name.length + f.data.length

/-- The first loop's `entries` array: each file paired with the running offset
at which its local header is written (src/zip.ts lines 30–52). -/
def zipEntriesAux : List ZFile → Nat → List (ZFile × Nat)
  | [], _ => []
  | f :: rest, off => (f, off) :: zipEntriesAux rest (off + localChunkLen f)

/-- The running offset after the first loop (the central-directory start). -/
def offsetAfterLocals : List ZFile → Nat → Nat
  | [], off => off
  | f :: rest, off => offsetAfterLocals rest (off + localChunkLen f)

/-- The 46-byte central-directory header of one entry (src/zip.ts
lines 57–74). -/
def cdHeader (f : ZFile) (offset : Nat) : List Nat :=
  u32le 0x02014b50 ++ u16le 20 ++ u16le 20 ++ u16le 0 ++ u16le 0 ++ u16le 0 ++
    u16le 0 ++ u32le (crc32 f.data) ++ u32le f.data.length ++
    u32le f.data.length ++ u16le f.name.length ++ u16le 0 ++ u16le 0 ++
    u16le 0 ++ u16le 0 ++ u32le 0 ++ u32le offset

/-- The bytes pushed for one entry in the central-directory loop: the 46-byte
header followed by the name bytes (src/zip.ts line 75). -/
def cdChunk (e : ZFile × Nat) : List Nat := cdHeader e.1 e.2 ++ e.1.name

/-- All central-directory bytes, in entry order. -/
def cdRecords (entries : List (ZFile × Nat)) : List Nat :=
  (entries.map cdChunk).flatten

/-- The running offset after the central-directory loop (src/zip.ts
line 76). -/
def offsetAfterCd : List (ZFile × Nat) → Nat → Nat
  | [], off => off
  | e :: rest, off => offsetAfterCd rest (off + (46 + e.1.name.length))

/-- The 22-byte end-of-central-directory record (src/zip.ts lines 81–89). -/
def eocdRecord (count cdSize cdStart : Nat) : List Nat :=
  u32le 0x06054b50 ++ u16le 0 ++ u16le 0 ++ u16le count ++ u16le count ++
    u32le cdSize ++ u32le cdStart ++ u16le 0

/-- `buildZipBuffer` (src/zip.ts lines 27–93): local chunks, then the central
directory, then the end record.  `offsetAfterLocals files 0` is the value of
the running `offset` counter after the first loop (`cdStart`, line 55), and
the `cdSize` argument is `offset - cdStart` after the second loop
(line 80). -/
def buildZipBuffer (files : List ZFile) : List Nat :=
  (files.map localChunk).flatten ++ cdRecords (zipEntriesAux files 0) ++
    eocdRecord files.length
      (offsetAfterCd (zipEntriesAux files 0) (offsetAfterLocals files 0) -
        offsetAfterLocals files 0)
      (offsetAfterLocals files 0)

/-- The actual bytes of the local-chunk region of the archive. -/
def zipLocalBytes (files : List ZFile) : List Nat :=
  (files.map localChunk).flatten

/-- The actual bytes of the central-directory region of the archive. -/
def zipCdBytes (files : List ZFile) : List Nat :=
  cdRecords (zipEntriesAux files 0)

/-- Byte offset of entry `i`'s local header within the archive. -/
def entryOffset (files : List ZFile) (i : Nat) : Nat :=
  ((files.take i).map localChunkLen).sum

/-- Byte offset of entry `i`'s central-directory record within the
central-directory region. -/
def cdEntryOffset (files : List ZFile) (i : Nat) : Nat :=
  ((files.take i).map (fun f => 46 + f.name.length)).sum

/-- Total length of the chunks before chunk `i` in a chunk list. -/
def chunksLenBefore (chunks : List (List Nat)) (i : Nat) : Nat :=
  ((chunks.take i).map List.length).sum

/-! ### Length bookkeeping -/

lemma localHeader_length (f : ZFile) : (localHeader f).length = 30 := by
  simp [localHeader, u16le, u32le]

lemma localChunk_length (f : ZFile) : (localChunk f).length = localChunkLen f := by
  simp [localChunk, localHeader_length, localChunkLen]; omega

lemma cdHeader_length (f : ZFile) (off : Nat) : (cdHeader f off).length = 46 := by
  simp [cdHeader, u16le, u32le]

lemma cdChunk_length (e : ZFile × Nat) : (cdChunk e).length = 46 + e.1.name.length := by
  simp [cdChunk, cdHeader_length]

lemma eocdRecord_length (c sz st : Nat) : (eocdRecord c sz st).length = 22 := by
  simp [eocdRecord, u16le, u32le]

lemma offsetAfterLocals_eq (files : List ZFile) (k : Nat) :
    offsetAfterLocals files k = k + (zipLocalBytes files).length := by
  induction files generalizing k with
  | nil => simp [offsetAfterLocals, zipLocalBytes]
  | cons f rest ih =>
      simp only [offsetAfterLocals, zipLocalBytes, List.map_cons, List.flatten_cons,
        List.length_append, ih, localChunk_length]
      simp [zipLocalBytes]; omega

lemma offsetAfterCd_eq (entries : List (ZFile × Nat)) (k : Nat) :
    offsetAfterCd entries k = k + (cdRecords entries).length := by
  induction entries generalizing k with
  | nil => simp [offsetAfterCd, cdRecords]
  | cons e rest ih =>
      simp only [offsetAfterCd, ih, cdRecords, List.map_cons, List.flatten_cons,
        List.length_append, cdChunk_length]
      simp [cdRecords]; omega

lemma zipEntriesAux_length (files : List ZFile) (k : Nat) :
    (zipEntriesAux files k).length = files.length := by
  induction files generalizing k with
  | nil => simp [zipEntriesAux]
  | cons f rest ih => simp [zipEntriesAux, ih]

lemma zipEntriesAux_map_fst (files : List ZFile) (k : Nat) :
    (zipEntriesAux files k).map Prod.fst = files := by
  induction files generalizing k with
  | nil => simp [zipEntriesAux]
  | cons f rest ih => simp [zipEntriesAux, ih]

lemma zipEntriesAux_get (files : List ZFile) (k i : Nat) (h : i < files.length) :
    (zipEntriesAux files k).get ⟨i, by rw [zipEntriesAux_length]; exact h⟩ =
      (files.get ⟨i, h⟩, k + entryOffset files i) := by
  induction files generalizing k i with
  | nil => simp at h
  | cons f rest ih =>
      cases i with
      | zero => simp [zipEntriesAux, entryOffset]
      | succ j =>
          have hj : j < rest.length := by simpa using h
          simp only [zipEntriesAux, List.get_cons_succ]
          rw [ih (k + localChunkLen f) j hj]
          simp [entryOffset, List.take_succ_cons]
          omega

/-! ### Reading bytes out of a flattened chunk list -/

lemma chunks_getD (chunks : List (List Nat)) (R : List Nat) (i : Nat)
    (hi : i < chunks.length) (j : Nat) (hj : j < (chunks.get ⟨i, hi⟩).length) :
    (chunks.flatten ++ R).getD (chunksLenBefore chunks i + j) 0 =
      (chunks.get ⟨i, hi⟩).getD j 0 := by
  induction chunks generalizing i R with
  | nil => simp at hi
  | cons c rest ih =>
      cases i with
      | zero =>
          simp only [chunksLenBefore, List.take_zero, List.map_nil, List.sum_nil,
            Nat.zero_add, List.flatten_cons, List.append_assoc, List.get_cons_zero]
          exact List.getD_append _ _ _ _ (by simpa using hj)
      | succ i' =>
          have hi' : i' < rest.length := by simpa using hi
          have hb : chunksLenBefore (c :: rest) (i' + 1) =
              c.length + chunksLenBefore rest i' := by
            simp [chunksLenBefore, List.take_succ_cons]
          rw [hb, List.flatten_cons, List.append_assoc, Nat.add_assoc,
            List.getD_append_right c _ _ _ (by omega)]
          simp only [Nat.add_sub_cancel_left]
          exact ih R i' hi' (by simpa using hj)

lemma chunks_extract (chunks : List (List Nat)) (R : List Nat) (i : Nat)
    (hi : i < chunks.length) (pre post : List Nat)
    (hsplit : chunks.get ⟨i, hi⟩ = pre ++ post) :
    ((chunks.flatten ++ R).drop (chunksLenBefore chunks i + pre.length)).take
        post.length = post := by
  induction chunks generalizing i R with
  | nil => simp at hi
  | cons c rest ih =>
      cases i with
      | zero =>
          have hsplit' : c = pre ++ post := hsplit
          simp only [chunksLenBefore, List.take_zero, List.map_nil, List.sum_nil,
            Nat.zero_add, List.flatten_cons, hsplit', List.append_assoc]
          rw [List.drop_left pre, List.take_left]
      | succ i' =>
          have hi' : i' < rest.length := by simpa using hi
          have hb : chunksLenBefore (c :: rest) (i' + 1) =
              c.length + chunksLenBefore rest i' := by
            simp [chunksLenBefore, List.take_succ_cons]
          rw [hb, List.flatten_cons, List.append_assoc, Nat.add_assoc,
            List.drop_append]
          exact ih R i' hi' (by simpa using hsplit)

lemma readU16_shift (L E : List Nat) (i : Nat) :
    readU16 (L ++ E) (L.length + i) = readU16 E i := by
  unfold readU16
  rw [List.getD_append_right L E 0 (L.length + i) (by omega),
    List.getD_append_right L E 0 (L.length + i + 1) (by omega),
    show L.length + i - L.length = i by omega,
    show L.length + i + 1 - L.length = i + 1 by omega]

lemma readU32_shift (L E : List Nat) (i : Nat) :
    readU32 (L ++ E) (L.length + i) = readU32 E i := by
  unfold readU32
  rw [List.getD_append_right L E 0 (L.length + i) (by omega),
    List.getD_append_right L E 0 (L.length + i + 1) (by omega),
    List.getD_append_right L E 0 (L.length + i + 2) (by omega),
    List.getD_append_right L E 0 (L.length + i + 3) (by omega),
    show L.length + i - L.length = i by omega,
    show L.length + i + 1 - L.length = i + 1 by omega,
    show L.length + i + 2 - L.length = i + 2 by omega,
    show L.length + i + 3 - L.length = i + 3 by omega]

lemma readU16_left (X Y : List Nat) (j : Nat) (h : j + 1 < X.length) :
    readU16 (X ++ Y) j = readU16 X j := by
  unfold readU16
  rw [List.getD_append X Y 0 j (by omega), List.getD_append X Y 0 (j + 1) (by omega)]

lemma readU32_left (X Y : List Nat) (j : Nat) (h : j + 3 < X.length) :
    readU32 (X ++ Y) j = readU32 X j := by
  unfold readU32
  rw [List.getD_append X Y 0 j (by omega), List.getD_append X Y 0 (j + 1) (by omega),
    List.getD_append X Y 0 (j + 2) (by omega), List.getD_append X Y 0 (j + 3) (by omega)]

lemma modByteDecomp16 (a : Nat) :
    a % 256 + 256 * (a / 256 % 256) = a % 65536 := by omega

lemma modByteDecomp32 (a : Nat) :
    a % 256 + 256 * (a / 256 % 256) + 65536 * (a / 65536 % 256) +
      16777216 * (a / 16777216 % 256) = a % 4294967296 := by omega

/-! ### The CRC accumulator stays below `2 ^ 32` -/

lemma crc32Round_lt (c : Nat) (h : c < 4294967296) : crc32Round c < 4294967296 := by
  unfold crc32Round
  split
  · exact Nat.xor_lt_two_pow (n := 32) (by norm_num) (by omega)
  · omega

lemma crc32Round_iter_lt (k c : Nat) (h : c < 4294967296) :
    crc32Round^[k] c < 4294967296 := by
  induction k generalizing c with
  | zero => simpa using h
  | succ k ih =>
      rw [Function.iterate_succ_apply]
      exact ih _ (crc32Round_lt c h)

lemma crc32TableEntry_lt (n : Nat) (h : n < 4294967296) :
    crc32TableEntry n < 4294967296 := crc32Round_iter_lt 8 n h

lemma crc32Update_lt (crc b : Nat) (h : crc < 4294967296) :
    crc32Update crc b < 4294967296 := by
  unfold crc32Update
  exact Nat.xor_lt_two_pow (n := 32)
    (crc32TableEntry_lt _ (by have := Nat.mod_lt (Nat.xor crc b) (y := 256) (by omega); omega))
    (by omega)

lemma crc32_foldl_lt (l : List Nat) (crc : Nat) (h : crc < 4294967296) :
    l.foldl crc32Update crc < 4294967296 := by
  induction l generalizing crc with
  | nil => simpa using h
  | cons b rest ih => exact ih _ (crc32Update_lt crc b h)

lemma crc32_lt (buf : List Nat) : crc32 buf < 4294967296 := by
  unfold crc32
  exact Nat.xor_lt_two_pow (n := 32) (crc32_foldl_lt _ _ (by norm_num)) (by norm_num)

/-! ### Reading the fields of a single chunk

`readU16` / `readU32` on a single chunk reduce definitionally through the
concrete header prefix (the symbolic CRC, length and offset fields are the
`u16le` / `u32le` byte splits of their values), so each field read is either
`rfl` or an instance of the byte-decomposition lemmas. -/

lemma read_localChunk_sig (f : ZFile) : readU32 (localChunk f) 0 = 0x04034b50 := by
  norm_num [readU32, localChunk, localHeader, u16le, u32le]

lemma read_localChunk_time (f : ZFile) : readU16 (localChunk f) 10 = 0 := by
  simp [readU16, localChunk, localHeader, u16le, u32le]

lemma read_localChunk_date (f : ZFile) : readU16 (localChunk f) 12 = 0 := by
  simp [readU16, localChunk, localHeader, u16le, u32le]

lemma read_localChunk_crc (f : ZFile) :
    readU32 (localChunk f) 14 = crc32 f.data := by
  have h : readU32 (localChunk f) 14 =
      crc32 f.data % 256 + 256 * (crc32 f.data / 256 % 256) +
        65536 * (crc32 f.data / 65536 % 256) +
        16777216 * (crc32 f.data / 16777216 % 256) := by
    simp [readU32, localChunk, localHeader, u16le, u32le]
  rw [h, modByteDecomp32, Nat.mod_eq_of_lt (crc32_lt f.data)]

lemma read_cdChunk_time (e : ZFile × Nat) : readU16 (cdChunk e) 12 = 0 := by
  simp [readU16, cdChunk, cdHeader, u16le, u32le]

lemma read_cdChunk_date (e : ZFile × Nat) : readU16 (cdChunk e) 14 = 0 := by
  simp [readU16, cdChunk, cdHeader, u16le, u32le]

lemma read_cdChunk_crc (e : ZFile × Nat) :
    readU32 (cdChunk e) 16 = crc32 e.1.data := by
  have h : readU32 (cdChunk e) 16 =
      crc32 e.1.data % 256 + 256 * (crc32 e.1.data / 256 % 256) +
        65536 * (crc32 e.1.data / 65536 % 256) +
        16777216 * (crc32 e.1.data / 16777216 % 256) := by
    simp [readU32, cdChunk, cdHeader, u16le, u32le]
  rw [h, modByteDecomp32, Nat.mod_eq_of_lt (crc32_lt e.1.data)]

lemma read_cdChunk_offset (e : ZFile × Nat) :
    readU32 (cdChunk e) 42 = e.2 % 4294967296 := by
  have h : readU32 (cdChunk e) 42 =
      e.2 % 256 + 256 * (e.2 / 256 % 256) + 65536 * (e.2 / 65536 % 256) +
        16777216 * (e.2 / 16777216 % 256) := by
    simp [readU32, cdChunk, cdHeader, u16le, u32le]
  rw [h, modByteDecomp32]

lemma read_eocd_sig (c sz st : Nat) : readU32 (eocdRecord c sz st) 0 = 0x06054b50 := by
  norm_num [readU32, eocdRecord, u16le, u32le]

lemma read_eocd_comment (c sz st : Nat) : readU16 (eocdRecord c sz st) 20 = 0 := by
  simp [readU16, eocdRecord, u16le, u32le]

lemma read_eocd_diskCount (c sz st : Nat) :
    readU16 (eocdRecord c sz st) 8 = c % 65536 := by
  have h : readU16 (eocdRecord c sz st) 8 = c % 256 + 256 * (c / 256 % 256) := by
    simp [readU16, eocdRecord, u16le, u32le]
  rw [h, modByteDecomp16]

lemma read_eocd_totalCount (c sz st : Nat) :
    readU16 (eocdRecord c sz st) 10 = c % 65536 := by
  have h : readU16 (eocdRecord c sz st) 10 = c % 256 + 256 * (c / 256 % 256) := by
    simp [readU16, eocdRecord, u16le, u32le]
  rw [h, modByteDecomp16]

lemma read_eocd_cdSize (c sz st : Nat) :
    readU32 (eocdRecord c sz st) 12 = sz % 4294967296 := by
  have h : readU32 (eocdRecord c sz st) 12 =
      sz % 256 + 256 * (sz / 256 % 256) + 65536 * (sz / 65536 % 256) +
        16777216 * (sz / 16777216 % 256) := by
    simp [readU32, eocdRecord, u16le, u32le]
  rw [h, modByteDecomp32]

lemma read_eocd_cdStart (c sz st : Nat) :
    readU32 (eocdRecord c sz st) 16 = st % 4294967296 := by
  have h : readU32 (eocdRecord c sz st) 16 =
      st % 256 + 256 * (st / 256 % 256) + 65536 * (st / 65536 % 256) +
        16777216 * (st / 16777216 % 256) := by
    simp [readU32, eocdRecord, u16le, u32le]
  rw [h, modByteDecomp32]

/-! ### Reading multi-byte fields through the flattened chunk lists -/

lemma readU16_chunks (chunks : List (List Nat)) (R : List Nat) (i : Nat)
    (hi : i < chunks.length) (j : Nat) (hj : j + 1 < (chunks.get ⟨i, hi⟩).length) :
    readU16 (chunks.flatten ++ R) (chunksLenBefore chunks i + j) =
      readU16 (chunks.get ⟨i, hi⟩) j := by
  unfold readU16
  rw [chunks_getD chunks R i hi j (by omega),
    show chunksLenBefore chunks i + j + 1 = chunksLenBefore chunks i + (j + 1) by omega,
    chunks_getD chunks R i hi (j + 1) (by omega)]

lemma readU32_chunks (chunks : List (List Nat)) (R : List Nat) (i : Nat)
    (hi : i < chunks.length) (j : Nat) (hj : j + 3 < (chunks.get ⟨i, hi⟩).length) :
    readU32 (chunks.flatten ++ R) (chunksLenBefore chunks i + j) =
      readU32 (chunks.get ⟨i, hi⟩) j := by
  unfold readU32
  rw [chunks_getD chunks R i hi j (by omega),
    show chunksLenBefore chunks i + j + 1 = chunksLenBefore chunks i + (j + 1) by omega,
    chunks_getD chunks R i hi (j + 1) (by omega),
    show chunksLenBefore chunks i + j + 2 = chunksLenBefore chunks i + (j + 2) by omega,
    chunks_getD chunks R i hi (j + 2) (by omega),
    show chunksLenBefore chunks i + j + 3 = chunksLenBefore chunks i + (j + 3) by omega,
    chunks_getD chunks R i hi (j + 3) (by omega)]

lemma chunksLenBefore_local (files : List ZFile) (i : Nat) :
    chunksLenBefore (files.map localChunk) i = entryOffset files i := by
  unfold chunksLenBefore entryOffset
  rw [← List.map_take, List.map_map]
  have h : (List.length ∘ localChunk) = localChunkLen := funext localChunk_length
  rw [h]

lemma chunksLenBefore_cd_aux (files : List ZFile) (k i : Nat) :
    chunksLenBefore ((zipEntriesAux files k).map cdChunk) i = cdEntryOffset files i := by
  induction files generalizing k i with
  | nil => simp [zipEntriesAux, chunksLenBefore, cdEntryOffset]
  | cons f rest ih =>
      cases i with
      | zero => simp [chunksLenBefore, cdEntryOffset]
      | succ i' =>
          simp only [zipEntriesAux, List.map_cons, chunksLenBefore, cdEntryOffset,
            List.take_succ_cons, List.map_cons, List.sum_cons, cdChunk_length]
          rw [show ((zipEntriesAux rest (k + localChunkLen f)).map cdChunk).take i' =
              ((zipEntriesAux rest (k + localChunkLen f)).map cdChunk).take i' from rfl]
          have := ih (k + localChunkLen f) i'
          simp only [chunksLenBefore, cdEntryOffset] at this
          rw [this]

lemma chunksLenBefore_cd (files : List ZFile) (i : Nat) :
    chunksLenBefore ((zipEntriesAux files 0).map cdChunk) i = cdEntryOffset files i :=
  chunksLenBefore_cd_aux files 0 i

lemma localChunks_get (files : List ZFile) (i : Nat) (hi : i < files.length) :
    (files.map localChunk).get ⟨i, by simpa using hi⟩ =
      localChunk (files.get ⟨i, hi⟩) := by
  simp

lemma cdChunks_get (files : List ZFile) (i : Nat) (hi : i < files.length) :
    ((zipEntriesAux files 0).map cdChunk).get
        ⟨i, by simp [zipEntriesAux_length]; exact hi⟩ =
      cdChunk (files.get ⟨i, hi⟩, entryOffset files i) := by
  rw [List.get_map]
  rw [show (zipEntriesAux files 0).get ⟨i, by rw [zipEntriesAux_length]; exact hi⟩ =
    (files.get ⟨i, hi⟩, 0 + entryOffset files i) from zipEntriesAux_get files 0 i hi]
  simp

/-! ### The archive decomposes into its three regions -/

lemma buildZip_decomp (files : List ZFile) :
    buildZipBuffer files =
      zipLocalBytes files ++
        (zipCdBytes files ++
          eocdRecord files.length (zipCdBytes files).length
            (zipLocalBytes files).length) := by
  unfold buildZipBuffer
  rw [offsetAfterLocals_eq, offsetAfterCd_eq, List.append_assoc]
  simp [zipLocalBytes, zipCdBytes]

/-! ### Reading header fields through the whole archive -/

lemma buildZip_read16_local (files : List ZFile) (i : Nat) (hi : i < files.length)
    (j : Nat) (hj : j + 1 < 30) :
    readU16 (buildZipBuffer files) (entryOffset files i + j) =
      readU16 (localChunk (files.get ⟨i, hi⟩)) j := by
  rw [buildZip_decomp]
  have hmem : i < (files.map localChunk).length := by simpa using hi
  have h := readU16_chunks (files.map localChunk)
    (zipCdBytes files ++
      eocdRecord files.length (zipCdBytes files).length (zipLocalBytes files).length)
    i hmem j
    (by rw [localChunks_get files i hi, localChunk_length]; unfold localChunkLen; omega)
  rw [chunksLenBefore_local, localChunks_get files i hi] at h
  exact h

lemma buildZip_read32_local (files : List ZFile) (i : Nat) (hi : i < files.length)
    (j : Nat) (hj : j + 3 < 30) :
    readU32 (buildZipBuffer files) (entryOffset files i + j) =
      readU32 (localChunk (files.get ⟨i, hi⟩)) j := by
  rw [buildZip_decomp]
  have hmem : i < (files.map localChunk).length := by simpa using hi
  have h := readU32_chunks (files.map localChunk)
    (zipCdBytes files ++
      eocdRecord files.length (zipCdBytes files).length (zipLocalBytes files).length)
    i hmem j
    (by rw [localChunks_get files i hi, localChunk_length]; unfold localChunkLen; omega)
  rw [chunksLenBefore_local, localChunks_get files i hi] at h
  exact h

lemma buildZip_read16_cd (files : List ZFile) (i : Nat) (hi : i < files.length)
    (j : Nat) (hj : j + 1 < 46) :
    readU16 (buildZipBuffer files)
        ((zipLocalBytes files).length + (cdEntryOffset files i + j)) =
      readU16 (cdChunk (files.get ⟨i, hi⟩, entryOffset files i)) j := by
  rw [buildZip_decomp, readU16_shift]
  have hmem : i < ((zipEntriesAux files 0).map cdChunk).length := by
    simp [zipEntriesAux_length]; exact hi
  have h := readU16_chunks ((zipEntriesAux files 0).map cdChunk)
    (eocdRecord files.length (zipCdBytes files).length (zipLocalBytes files).length)
    i hmem j
    (by rw [cdChunks_get files i hi, cdChunk_length]; omega)
  rw [chunksLenBefore_cd, cdChunks_get files i hi] at h
  exact h

lemma buildZip_read32_cd (files : List ZFile) (i : Nat) (hi : i < files.length)
    (j : Nat) (hj : j + 3 < 46) :
    readU32 (buildZipBuffer files)
        ((zipLocalBytes files).length + (cdEntryOffset files i + j)) =
      readU32 (cdChunk (files.get ⟨i, hi⟩, entryOffset files i)) j := by
  rw [buildZip_decomp, readU32_shift]
  have hmem : i < ((zipEntriesAux files 0).map cdChunk).length := by
    simp [zipEntriesAux_length]; exact hi
  have h := readU32_chunks ((zipEntriesAux files 0).map cdChunk)
    (eocdRecord files.length (zipCdBytes files).length (zipLocalBytes files).length)
    i hmem j
    (by rw [cdChunks_get files i hi, cdChunk_length]; omega)
  rw [chunksLenBefore_cd, cdChunks_get files i hi] at h
  exact h


/-! ## Claim theorems for the archive builder -/

/-- C1: for every FileSet (including the empty one) the buffer built by
`buildZipBuffer` ends in a well-formed 22-byte end-of-central-directory
record — signature `0x06054b50`, comment length 0, declared entry counts
equal to the number of entries, and central-directory size and start-offset
fields equal to the actual byte size and actual starting offset of the
central directory within the buffer — and whenever the FileSet is non-empty
the first four bytes of the buffer are the local-header signature
`0x04034b50`.  (The size hypotheses delimit the inputs Node's
`Buffer.writeUInt16LE` / `writeUInt32LE` accept without throwing.) -/
theorem zip_eocd_wellformed (files : List ZFile)
    (hcount : files.length < 65536)
    (hsize : (zipCdBytes files).length < 4294967296)
    (hstart : (zipLocalBytes files).length < 4294967296) :
    (buildZipBuffer files).length =
        (zipLocalBytes files).length + (zipCdBytes files).length + 22 ∧
      (buildZipBuffer files).drop
          ((zipLocalBytes files).length + (zipCdBytes files).length) =
        eocdRecord files.length (zipCdBytes files).length
          (zipLocalBytes files).length ∧
      readU32 (buildZipBuffer files)
          ((zipLocalBytes files).length + (zipCdBytes files).length) =
        0x06054b50 ∧
      readU16 (buildZipBuffer files)
          ((zipLocalBytes files).length + (zipCdBytes files).length + 20) = 0 ∧
      readU16 (buildZipBuffer files)
          ((zipLocalBytes files).length + (zipCdBytes files).length + 8) =
        files.length ∧
      readU16 (buildZipBuffer files)
          ((zipLocalBytes files).length + (zipCdBytes files).length + 10) =
        files.length ∧
      readU32 (buildZipBuffer files)
          ((zipLocalBytes files).length + (zipCdBytes files).length + 12) =
        (zipCdBytes files).length ∧
      readU32 (buildZipBuffer files)
          ((zipLocalBytes files).length + (zipCdBytes files).length + 16) =
        (zipLocalBytes files).length ∧
      (files ≠ [] → readU32 (buildZipBuffer files) 0 = 0x04034b50) := by
  have hd := buildZip_decomp files
  have h16 : ∀ j, readU16 (buildZipBuffer files)
      ((zipLocalBytes files).length + (zipCdBytes files).length + j) =
      readU16 (eocdRecord files.length (zipCdBytes files).length
        (zipLocalBytes files).length) j := by
    intro j
    rw [hd, ← List.append_assoc,
      show (zipLocalBytes files).length + (zipCdBytes files).length + j =
        (zipLocalBytes files ++ zipCdBytes files).length + j by simp,
      readU16_shift]
  have h32 : ∀ j, readU32 (buildZipBuffer files)
      ((zipLocalBytes files).length + (zipCdBytes files).length + j) =
      readU32 (eocdRecord files.length (zipCdBytes files).length
        (zipLocalBytes files).length) j := by
    intro j
    rw [hd, ← List.append_assoc,
      show (zipLocalBytes files).length + (zipCdBytes files).length + j =
        (zipLocalBytes files ++ zipCdBytes files).length + j by simp,
      readU32_shift]
  refine ⟨?_, ?_, ?_, ?_, ?_, ?_, ?_, ?_, ?_⟩
  · rw [hd]; simp [eocdRecord_length]; omega
  · rw [hd, ← List.append_assoc,
      show (zipLocalBytes files).length + (zipCdBytes files).length =
        (zipLocalBytes files ++ zipCdBytes files).length by simp,
      List.drop_left]
  · have h := h32 0
    rw [Nat.add_zero] at h
    rw [h, read_eocd_sig]
  · rw [h16 20, read_eocd_comment]
  · rw [h16 8, read_eocd_diskCount, Nat.mod_eq_of_lt hcount]
  · rw [h16 10, read_eocd_totalCount, Nat.mod_eq_of_lt hcount]
  · rw [h32 12, read_eocd_cdSize, Nat.mod_eq_of_lt hsize]
  · rw [h32 16, read_eocd_cdStart, Nat.mod_eq_of_lt hstart]
  · intro hne
    cases files with
    | nil => exact absurd rfl hne
    | cons f rest =>
        have hb : buildZipBuffer (f :: rest) =
            localChunk f ++
              (zipLocalBytes rest ++
                (zipCdBytes (f :: rest) ++
                  eocdRecord (f :: rest).length (zipCdBytes (f :: rest)).length
                    (zipLocalBytes (f :: rest)).length)) := by
          rw [buildZip_decomp]
          simp [zipLocalBytes]
        rw [hb, readU32_left _ _ 0
          (by rw [localChunk_length]; unfold localChunkLen; omega),
          read_localChunk_sig]

/-- Witness for C1 at the one-entry FileSet `{"a" ↦ "x"}` (name byte 97,
content byte 120): the hypotheses hold and the declared total-entry count
field reads back as 1. -/
theorem zip_eocd_wellformed_witness :
    ([ZFile.mk [97] [120]] : List ZFile).length < 65536 ∧
      (zipCdBytes [ZFile.mk [97] [120]]).length < 4294967296 ∧
      (zipLocalBytes [ZFile.mk [97] [120]]).length < 4294967296 ∧
      readU16 (buildZipBuffer [ZFile.mk [97] [120]])
          ((zipLocalBytes [ZFile.mk [97] [120]]).length +
            (zipCdBytes [ZFile.mk [97] [120]]).length + 10) =
        ([ZFile.mk [97] [120]] : List ZFile).length :=
  ⟨by decide, by decide, by decide,
    (zip_eocd_wellformed [ZFile.mk [97] [120]] (by decide) (by decide)
      (by decide)).2.2.2.2.2.1⟩

/-- C2: every file's content bytes appear unmodified as one contiguous run in
the built archive, immediately after its 30-byte local header and its name
bytes, and the entry's central-directory record stores exactly that byte
offset in its relative-offset field (bytes 42–45). -/
theorem zip_content_roundtrip (files : List ZFile) (i : Nat)
    (hi : i < files.length) (hoff : entryOffset files i < 4294967296) :
    ((buildZipBuffer files).drop
        (entryOffset files i + (30 + (files.get ⟨i, hi⟩).name.length))).take
      (files.get ⟨i, hi⟩).data.length = (files.get ⟨i, hi⟩).data ∧
    readU32 (buildZipBuffer files)
        ((zipLocalBytes files).length + (cdEntryOffset files i + 42)) =
      entryOffset files i := by
  constructor
  · have hmem : i < (files.map localChunk).length := by simpa using hi
    have hsplit : (files.map localChunk).get ⟨i, hmem⟩ =
        (localHeader (files.get ⟨i, hi⟩) ++ (files.get ⟨i, hi⟩).name) ++
          (files.get ⟨i, hi⟩).data := by
      rw [localChunks_get files i hi]
      rfl
    have h := chunks_extract (files.map localChunk)
      (zipCdBytes files ++
        eocdRecord files.length (zipCdBytes files).length
          (zipLocalBytes files).length)
      i hmem _ _ hsplit
    rw [chunksLenBefore_local,
      show (localHeader (files.get ⟨i, hi⟩) ++ (files.get ⟨i, hi⟩).name).length =
        30 + (files.get ⟨i, hi⟩).name.length by
          simp [localHeader_length]] at h
    rw [buildZip_decomp]
    exact h
  · rw [buildZip_read32_cd files i hi 42 (by omega), read_cdChunk_offset,
      Nat.mod_eq_of_lt hoff]

/-- Witness for C2 at `{"a" ↦ "x"}`, entry 0: the hypotheses hold and the
content byte run `[120]` is recovered from the archive. -/
theorem zip_content_roundtrip_witness :
    0 < ([ZFile.mk [97] [120]] : List ZFile).length ∧
      entryOffset [ZFile.mk [97] [120]] 0 < 4294967296 ∧
      ((buildZipBuffer [ZFile.mk [97] [120]]).drop
          (entryOffset [ZFile.mk [97] [120]] 0 +
            (30 + (([ZFile.mk [97] [120]] : List ZFile).get
              ⟨0, by decide⟩).name.length))).take
        (([ZFile.mk [97] [120]] : List ZFile).get ⟨0, by decide⟩).data.length =
        (([ZFile.mk [97] [120]] : List ZFile).get ⟨0, by decide⟩).data :=
  ⟨by decide, by decide,
    (zip_content_roundtrip [ZFile.mk [97] [120]] 0 (by decide) (by decide)).1⟩

/-- C3: the checksum field written into entry `i`'s local header (bytes
14–17) and into its central-directory record (bytes 16–19) both equal
`crc32` of the entry's content bytes — the table-based CRC-32 with
polynomial `0xEDB88320` (reflected), accumulator seeded with `0xFFFFFFFF`
and complemented at the end, as defined by `crc32Table`/`crc32` in
src/zip.ts. -/
theorem zip_crc_fields (files : List ZFile) (i : Nat) (hi : i < files.length) :
    readU32 (buildZipBuffer files) (entryOffset files i + 14) =
      crc32 (files.get ⟨i, hi⟩).data ∧
    readU32 (buildZipBuffer files)
        ((zipLocalBytes files).length + (cdEntryOffset files i + 16)) =
      crc32 (files.get ⟨i, hi⟩).data := by
  constructor
  · rw [buildZip_read32_local files i hi 14 (by omega), read_localChunk_crc]
  · rw [buildZip_read32_cd files i hi 16 (by omega), read_cdChunk_crc]

/-- Witness for C3 at `{"a" ↦ "x"}`, entry 0. -/
theorem zip_crc_fields_witness :
    0 < ([ZFile.mk [97] [120]] : List ZFile).length ∧
      readU32 (buildZipBuffer [ZFile.mk [97] [120]])
          (entryOffset [ZFile.mk [97] [120]] 0 + 14) =
        crc32 (([ZFile.mk [97] [120]] : List ZFile).get ⟨0, by decide⟩).data :=
  ⟨by decide, (zip_crc_fields [ZFile.mk [97] [120]] 0 (by decide)).1⟩

/-- C10: `buildZipBuffer` is deterministic — equal entry lists (same names,
same order, byte-equal contents) give byte-identical buffers, the function
reading no ambient state — and all timestamp fields (mod time and mod date
in every local header and every central-directory record) are fixed to
zero. -/
theorem zip_deterministic (files₁ files₂ : List ZFile) (h : files₁ = files₂) :
    buildZipBuffer files₁ = buildZipBuffer files₂ ∧
    ∀ i, i < files₁.length →
      readU16 (buildZipBuffer files₁) (entryOffset files₁ i + 10) = 0 ∧
      readU16 (buildZipBuffer files₁) (entryOffset files₁ i + 12) = 0 ∧
      readU16 (buildZipBuffer files₁)
          ((zipLocalBytes files₁).length + (cdEntryOffset files₁ i + 12)) = 0 ∧
      readU16 (buildZipBuffer files₁)
          ((zipLocalBytes files₁).length + (cdEntryOffset files₁ i + 14)) = 0 := by
  refine ⟨by rw [h], fun i hi => ⟨?_, ?_, ?_, ?_⟩⟩
  · rw [buildZip_read16_local files₁ i hi 10 (by omega), read_localChunk_time]
  · rw [buildZip_read16_local files₁ i hi 12 (by omega), read_localChunk_date]
  · rw [buildZip_read16_cd files₁ i hi 12 (by omega), read_cdChunk_time]
  · rw [buildZip_read16_cd files₁ i hi 14 (by omega), read_cdChunk_date]

/-- Witness for C10 at `{"a" ↦ "x"}`. -/
theorem zip_deterministic_witness :
    ([ZFile.mk [97] [120]] : List ZFile) = [ZFile.mk [97] [120]] ∧
      buildZipBuffer [ZFile.mk [97] [120]] = buildZipBuffer [ZFile.mk [97] [120]] :=
  ⟨rfl, (zip_deterministic [ZFile.mk [97] [120]] [ZFile.mk [97] [120]] rfl).1⟩

/-! ## Analyzer names (src/scanner/types.ts)

TypeScript analyzer names are plain strings.  JavaScript's
`String.prototype.trim` / `toLowerCase` are modelled by `jsTrim` /
`jsToLower` on the character list (ASCII whitespace and ASCII case, which is
exact for every comparison the source performs, since all compared literals
are ASCII). -/

def isJsSpace (c : Char) : Bool := c = ' ' ∨ c = '\t' ∨ c = '\n' ∨ c = '\r'

def jsCharToLower (c : Char) : Char :=
  if 'A' ≤ c ∧ c ≤ 'Z' then Char.ofNat (c.toNat + 32) else c

def jsTrim (s : String) : String :=
  ⟨((s.data.dropWhile isJsSpace).reverse.dropWhile isJsSpace).reverse⟩

def jsToLower (s : String) : String := ⟨s.data.map jsCharToLower⟩

/-- `CORE_ANALYZERS` (src/scanner/types.ts lines 22–25). -/
def CORE_ANALYZERS : List String := ["static_analyzer", "behavioral_analyzer"]

/-- `normalizeAnalyzerName` (src/scanner/types.ts lines 27–36). -/
def normalizeAnalyzerName (value : String) : Option String :=
  if jsToLower (jsTrim value) = "static" ∨
      jsToLower (jsTrim value) = "static_analyzer" then
    some "static_analyzer"
  else if jsToLower (jsTrim value) = "behavioral" ∨
      jsToLower (jsTrim value) = "behavioral_analyzer" then
    some "behavioral_analyzer"
  else none

/-- One step of the `Set` loop in `uniqueAnalyzers` (src/scanner/types.ts
lines 40–45): a JavaScript `Set` keeps insertion order and drops
duplicates. -/
def insertAnalyzer (acc : List String) (value : String) : List String :=
  match normalizeAnalyzerName value with
  | some normalized => if normalized ∈ acc then acc else acc ++ [normalized]
  | none => acc

/-- `uniqueAnalyzers` (src/scanner/types.ts lines 38–47). -/
def uniqueAnalyzers (values : List String) : List String :=
  values.foldl insertAnalyzer []

/-! ## The scan client (src/scanner/client.ts)

The wire response is modelled structurally (`Record<string, unknown>` fields
become `Option` fields; a missing or wrongly-typed field is `none`), and the
behaviour of the `fetch` call is an explicit `FetchBehaviour` parameter:
an HTTP response (status, text body, JSON parse outcome), an abort of the
120-second timeout, or any other transport failure.  Every `catch` in the
source is a constructor case, so the client is a total function into
`ScanResult`. -/

inductive ScanStatus
  | SAFE
  | UNSAFE
  | ERROR
deriving DecidableEq, Repr

structure ScanFinding where
  rule_id : String
  severity : String
  description : String
  file_path : String
  analyzer : String
deriving DecidableEq, Repr

/-- `ScanResult` (src/scanner/types.ts lines 3–18). -/
structure ScanResult where
  available : Bool
  status : Option ScanStatus := none
  maxSeverity : Option String := none
  totalFindings : Option Nat := none
  findings : Option (List ScanFinding) := none
  analyzersUsed : Option (List String) := none
  scanDuration : Option String := none
  error : Option String := none
deriving DecidableEq, Repr

structure WireFinding where
  rule_id : Option String := none
  ruleId : Option String := none
  severity : Option String := none
  description : Option String := none
  message : Option String := none
  file_path : Option String := none
  filePath : Option String := none
  analyzer : Option String := none
deriving DecidableEq, Repr

/-- The response JSON fields the client consumes (numbers are modelled as
naturals; only their presence and stringification matter here). -/
structure WireResponse where
  is_safe : Option Bool := none
  max_severity : Option String := none
  findings_count : Option Nat := none
  findings : Option (List WireFinding) := none
  analyzers_used : Option (List String) := none
  scan_duration_seconds : Option Nat := none
deriving DecidableEq, Repr

inductive FetchBehaviour
  | httpResponse (status : Nat) (textBody : String) (jsonBody : Option WireResponse)
  | abortTimeout
  | networkError (msg : String)
deriving DecidableEq, Repr

/-- JavaScript `String(a || b || "")`: first truthy (non-empty) of the two. -/
def firstTruthy (a b : Option String) : String :=
  if a.getD "" = "" then b.getD "" else a.getD ""

/-- JavaScript `String(a || d)` for a string default. -/
def strOrDefault (a : Option String) (d : String) : String :=
  if a.getD "" = "" then d else a.getD ""

/-- Truthiness of an optional environment string. -/
def envTruthy (o : Option String) : Bool := !(o.getD "" = "")

/-- The LLM-related environment configuration read by the client
(src/scanner/client.ts lines 15–17). -/
structure ClientConfig where
  llmApiKey : Option String := none
  llmModel : Option String := none
  llmProvider : Option String := none
deriving DecidableEq, Repr

/-- The query string built in src/scanner/client.ts lines 12–27
(`URLSearchParams` in insertion order; percent-encoding is not modelled). -/
def scanQueryString (cfg : ClientConfig) : String :=
  "use_behavioral=true" ++
    (if envTruthy cfg.llmApiKey then
      "&use_llm=true" ++
        (if envTruthy cfg.llmModel then "&llm_model=" ++ cfg.llmModel.getD ""
          else "") ++
        (if envTruthy cfg.llmProvider then
          "&llm_provider=" ++ cfg.llmProvider.getD ""
          else "")
      else "")

/-- `apiUrl.replace(/\/$/, "")` (src/scanner/client.ts line 31). -/
def stripTrailingSlash (s : String) : String :=
  if s.endsWith "/" then s.dropRight 1 else s

/-- The scan-upload URL (src/scanner/client.ts line 31). -/
def scanUrl (cfg : ClientConfig) (apiUrl : String) : String :=
  stripTrailingSlash apiUrl ++ "/scan-upload?" ++ scanQueryString cfg

/-- Normalization of one wire finding (src/scanner/client.ts lines 142–148). -/
def mapWireFinding (f : WireFinding) : ScanFinding :=
  { rule_id := firstTruthy f.rule_id f.ruleId
    severity := f.severity.getD ""
    description := firstTruthy f.description f.message
    file_path := firstTruthy f.file_path f.filePath
    analyzer := f.analyzer.getD "" }

/-- The analyzer names attached to individual findings
(src/scanner/client.ts lines 117–125): `String(f.analyzer || "")`. -/
def analyzersOfFindings (findings : List WireFinding) : List String :=
  findings.map (fun f => f.analyzer.getD "")

/-- The executed-analyzer set of a successfully parsed response
(src/scanner/client.ts lines 113–130): the deduplicated normalization of the
requested analyzers (`CORE_ANALYZERS`), the response's `analyzers_used`, and
the per-finding analyzer names. -/
def executedAnalyzersOf (parsed : WireResponse) : List String :=
  uniqueAnalyzers
    (CORE_ANALYZERS ++ uniqueAnalyzers (parsed.analyzers_used.getD []) ++
      uniqueAnalyzers (analyzersOfFindings (parsed.findings.getD [])))

/-- The success-path `ScanResult` (src/scanner/client.ts lines 134–155). -/
def scanSuccessResult (parsed : WireResponse) : ScanResult :=
  { available := true
    status := some (if parsed.is_safe = some true then ScanStatus.SAFE
      else ScanStatus.UNSAFE)
    maxSeverity := some (strOrDefault parsed.max_severity "UNKNOWN")
    totalFindings := some (match parsed.findings_count with
      | some n => n
      | none => (parsed.findings.getD []).length)
    findings := some ((parsed.findings.getD []).map mapWireFinding)
    analyzersUsed := if (executedAnalyzersOf parsed).length > 0 then
        some (executedAnalyzersOf parsed)
      else none
    scanDuration := match parsed.scan_duration_seconds with
      | some n => some (toString n ++ "s")
      | none => none
    error := none }

/-- `runSkillScannerApi` (src/scanner/client.ts lines 8–171) as a function of
the endpoint behaviour. -/
def runSkillScannerApi (cfg : ClientConfig) (behaviour : FetchBehaviour)
    (apiUrl : String) : ScanResult :=
  match behaviour with
  | FetchBehaviour.httpResponse status textBody jsonBody =>
      if ¬(200 ≤ status ∧ status < 300) then
        { available := true
          status := some ScanStatus.ERROR
          error := some ("API returned " ++ toString status ++ ": " ++ textBody) }
      else
        match jsonBody with
        | none =>
            { available := true
              status := some ScanStatus.ERROR
              error := some ("Skill Scanner API returned invalid JSON from " ++
                scanUrl cfg apiUrl) }
        | some parsed => scanSuccessResult parsed
  | FetchBehaviour.abortTimeout =>
      { available := true
        status := some ScanStatus.ERROR
        error := some "Skill Scanner API request timed out" }
  | FetchBehaviour.networkError msg =>
      { available := false
        error := some ("Skill Scanner API unreachable at " ++ apiUrl ++ ": " ++
          msg) }

/-- The remediation text returned when no endpoint resolves
(src/scanner/client.ts lines 179–188). -/
def uvxRemediationText : String :=
  "Security scanner not available — uvx is not installed.\n" ++
    "Install uv to enable automatic security scanning:\n" ++
    "  macOS/Linux: curl -LsSf https://astral.sh/uv/install.sh | sh\n" ++
    "  Windows: powershell -c \"irm https://astral.sh/uv/install.ps1 | iex\"\n" ++
    "Skill content was still read successfully."

/-- `runSkillScanner` (src/scanner/client.ts lines 173–191), with the
endpoint resolved by the lifecycle passed as a parameter. -/
def runSkillScanner (cfg : ClientConfig) (endpoint : String)
    (behaviour : FetchBehaviour) : ScanResult :=
  if endpoint = "" then
    { available := false, error := some uvxRemediationText }
  else runSkillScannerApi cfg behaviour endpoint

/-! ## Lemmas about analyzer normalization -/

lemma normalizeAnalyzerName_mem_core {t a : String}
    (h : normalizeAnalyzerName t = some a) : a ∈ CORE_ANALYZERS := by
  unfold normalizeAnalyzerName at h
  split at h
  · simp at h
    simp [CORE_ANALYZERS, ← h]
  · split at h
    · simp at h
      simp [CORE_ANALYZERS, ← h]
    · simp at h

lemma normalizeAnalyzerName_core {a : String} (h : a ∈ CORE_ANALYZERS) :
    normalizeAnalyzerName a = some a := by
  simp [CORE_ANALYZERS] at h
  rcases h with h | h <;> subst h <;> decide

lemma mem_foldl_insertAnalyzer (l : List String) :
    ∀ (acc : List String) (a : String),
      a ∈ l.foldl insertAnalyzer acc ↔
        a ∈ acc ∨ ∃ t ∈ l, normalizeAnalyzerName t = some a := by
  induction l with
  | nil => simp
  | cons v rest ih =>
      intro acc a
      rw [List.foldl_cons, ih]
      unfold insertAnalyzer
      cases hnv : normalizeAnalyzerName v with
      | none =>
          simp only [List.mem_cons]
          constructor
          · rintro (h | h)
            · exact Or.inl h
            · exact Or.inr ⟨h.choose, Or.inr h.choose_spec.1, h.choose_spec.2⟩
          · rintro (h | ⟨t, ht | ht, hn⟩)
            · exact Or.inl h
            · subst ht; rw [hnv] at hn; exact absurd hn (by simp)
            · exact Or.inr ⟨t, ht, hn⟩
      | some x =>
          by_cases hx : x ∈ acc
          · simp only [hx, if_pos, List.mem_cons]
            constructor
            · rintro (h | h)
              · exact Or.inl h
              · exact Or.inr ⟨h.choose, Or.inr h.choose_spec.1, h.choose_spec.2⟩
            · rintro (h | ⟨t, ht | ht, hn⟩)
              · exact Or.inl h
              · subst ht
                rw [hnv] at hn
                simp at hn
                subst hn
                exact Or.inl hx
              · exact Or.inr ⟨t, ht, hn⟩
          · simp only [hx, if_neg, not_false_iff, List.mem_append,
              List.mem_singleton, List.mem_cons, List.not_mem_nil, or_false]
            constructor
            · rintro ((h | h) | h)
              · exact Or.inl h
              · exact Or.inr ⟨v, Or.inl rfl, by rw [hnv, h]⟩
              · exact Or.inr ⟨h.choose, Or.inr h.choose_spec.1, h.choose_spec.2⟩
            · rintro (h | ⟨t, ht | ht, hn⟩)
              · exact Or.inl (Or.inl h)
              · subst ht
                rw [hnv] at hn
                simp at hn
                exact Or.inl (Or.inr hn.symm)
              · exact Or.inr ⟨t, ht, hn⟩

lemma mem_uniqueAnalyzers (values : List String) (a : String) :
    a ∈ uniqueAnalyzers values ↔
      ∃ t ∈ values, normalizeAnalyzerName t = some a := by
  rw [uniqueAnalyzers, mem_foldl_insertAnalyzer]
  simp

lemma nodup_foldl_insertAnalyzer (l : List String) :
    ∀ acc : List String, acc.Nodup → (l.foldl insertAnalyzer acc).Nodup := by
  induction l with
  | nil => intro acc h; simpa using h
  | cons v rest ih =>
      intro acc h
      rw [List.foldl_cons]
      apply ih
      unfold insertAnalyzer
      cases normalizeAnalyzerName v with
      | none => exact h
      | some x =>
          by_cases hx : x ∈ acc
          · simpa [hx] using h
          · simp [hx, List.nodup_append, h]

lemma uniqueAnalyzers_nodup (values : List String) :
    (uniqueAnalyzers values).Nodup :=
  nodup_foldl_insertAnalyzer values [] List.nodup_nil

lemma exists_mem_uniqueAnalyzers_iff (L : List String) (a : String) :
    (∃ t ∈ uniqueAnalyzers L, normalizeAnalyzerName t = some a) ↔
      ∃ t ∈ L, normalizeAnalyzerName t = some a := by
  constructor
  · rintro ⟨t, htm, htn⟩
    rw [mem_uniqueAnalyzers] at htm
    obtain ⟨u, hu, hun⟩ := htm
    have ht : normalizeAnalyzerName t = some t :=
      normalizeAnalyzerName_core (normalizeAnalyzerName_mem_core hun)
    rw [ht] at htn
    simp at htn
    subst htn
    exact ⟨u, hu, hun⟩
  · rintro ⟨t, htm, htn⟩
    have ha : a ∈ uniqueAnalyzers L := by
      rw [mem_uniqueAnalyzers]; exact ⟨t, htm, htn⟩
    exact ⟨a, ha, normalizeAnalyzerName_core (normalizeAnalyzerName_mem_core htn)⟩

lemma exists_mem_core_iff (a : String) :
    (∃ t ∈ CORE_ANALYZERS, normalizeAnalyzerName t = some a) ↔
      a ∈ CORE_ANALYZERS := by
  constructor
  · rintro ⟨t, htm, htn⟩
    have ht : normalizeAnalyzerName t = some t := normalizeAnalyzerName_core htm
    rw [ht] at htn
    simp at htn
    subst htn
    exact htm
  · intro h
    exact ⟨a, h, normalizeAnalyzerName_core h⟩

lemma mem_executedAnalyzersOf (parsed : WireResponse) (a : String) :
    a ∈ executedAnalyzersOf parsed ↔
      a ∈ CORE_ANALYZERS ∨
        (∃ t ∈ parsed.analyzers_used.getD [], normalizeAnalyzerName t = some a) ∨
        (∃ t ∈ analyzersOfFindings (parsed.findings.getD []),
          normalizeAnalyzerName t = some a) := by
  unfold executedAnalyzersOf
  rw [mem_uniqueAnalyzers]
  constructor
  · rintro ⟨t, htm, htn⟩
    rw [List.mem_append, List.mem_append] at htm
    rcases htm with (htm | htm) | htm
    · left
      have ht : normalizeAnalyzerName t = some t := normalizeAnalyzerName_core htm
      rw [ht] at htn; simp at htn; subst htn; exact htm
    · right; left
      exact (exists_mem_uniqueAnalyzers_iff _ a).1 ⟨t, htm, htn⟩
    · right; right
      exact (exists_mem_uniqueAnalyzers_iff _ a).1 ⟨t, htm, htn⟩
  · rintro (h | h | h)
    · exact ⟨a, by simp [h], normalizeAnalyzerName_core h⟩
    · obtain ⟨t, htm, htn⟩ := (exists_mem_uniqueAnalyzers_iff _ a).2 h
      exact ⟨t, by simp [htm], htn⟩
    · obtain ⟨t, htm, htn⟩ := (exists_mem_uniqueAnalyzers_iff _ a).2 h
      exact ⟨t, by simp [htm], htn⟩

lemma executedAnalyzersOf_ne_nil (parsed : WireResponse) :
    (executedAnalyzersOf parsed).length > 0 := by
  have h : "static_analyzer" ∈ executedAnalyzersOf parsed := by
    rw [mem_executedAnalyzersOf]
    left
    simp [CORE_ANALYZERS]
  cases he : executedAnalyzersOf parsed with
  | nil => rw [he] at h; simp at h
  | cons x xs => simp

/-! ## Claim theorems for the scan client -/

/-- C7: analyzer-name normalization maps the abbreviated and the canonical
form of each analyzer (case-insensitively, whitespace-trimmed) to the same
canonical identifier, drops every unrecognized name, and collapses
duplicates; and on a successfully parsed response the executed-analyzer set
reported in the `ScanResult` is exactly `executedAnalyzersOf parsed`, which
is duplicate-free and whose members are exactly the normalized union of the
requested analyzers (`CORE_ANALYZERS`), the response's `analyzers_used`
names, and the analyzer names attached to individual findings. -/
theorem analyzer_normalization_union (s : String) (parsed : WireResponse) :
    ((jsToLower (jsTrim s) = "static" ∨
        jsToLower (jsTrim s) = "static_analyzer") →
      normalizeAnalyzerName s = some "static_analyzer") ∧
    ((jsToLower (jsTrim s) = "behavioral" ∨
        jsToLower (jsTrim s) = "behavioral_analyzer") →
      normalizeAnalyzerName s = some "behavioral_analyzer") ∧
    (jsToLower (jsTrim s) ≠ "static" → jsToLower (jsTrim s) ≠ "static_analyzer" →
      jsToLower (jsTrim s) ≠ "behavioral" →
      jsToLower (jsTrim s) ≠ "behavioral_analyzer" →
      normalizeAnalyzerName s = none) ∧
    (∀ values : List String, (uniqueAnalyzers values).Nodup) ∧
    (∀ (cfg : ClientConfig) (url textBody : String) (status : Nat),
      200 ≤ status → status < 300 →
      (runSkillScannerApi cfg
          (FetchBehaviour.httpResponse status textBody (some parsed))
          url).analyzersUsed = some (executedAnalyzersOf parsed) ∧
      (executedAnalyzersOf parsed).Nodup ∧
      (∀ a, a ∈ executedAnalyzersOf parsed ↔
        a ∈ CORE_ANALYZERS ∨
          (∃ t ∈ parsed.analyzers_used.getD [],
            normalizeAnalyzerName t = some a) ∨
          (∃ t ∈ analyzersOfFindings (parsed.findings.getD []),
            normalizeAnalyzerName t = some a))) := by
  refine ⟨?_, ?_, ?_, fun values => uniqueAnalyzers_nodup values, ?_⟩
  · intro h
    unfold normalizeAnalyzerName
    rw [if_pos h]
  · intro h
    have h1 : ¬(jsToLower (jsTrim s) = "static" ∨
        jsToLower (jsTrim s) = "static_analyzer") := by
      rcases h with h | h <;> rw [h] <;> decide
    unfold normalizeAnalyzerName
    rw [if_neg h1, if_pos h]
  · intro h1 h2 h3 h4
    unfold normalizeAnalyzerName
    rw [if_neg (by tauto), if_neg (by tauto)]
  · intro cfg url textBody status hs1 hs2
    refine ⟨?_, uniqueAnalyzers_nodup _, mem_executedAnalyzersOf parsed⟩
    simp only [runSkillScannerApi]
    rw [if_neg (not_not_intro ⟨hs1, hs2⟩)]
    unfold scanSuccessResult
    simp only []
    rw [if_pos (executedAnalyzersOf_ne_nil parsed)]

/-- Witness for C7: `" STATIC "` normalizes to the canonical static-analyzer
identifier, and the executed-analyzer set of a concrete parsed response is
reported in the `ScanResult`. -/
theorem analyzer_normalization_union_witness :
    (jsToLower (jsTrim " STATIC ") = "static" ∨
        jsToLower (jsTrim " STATIC ") = "static_analyzer") ∧
      normalizeAnalyzerName " STATIC " = some "static_analyzer" ∧
      (200 ≤ 200 ∧ 200 < 300) ∧
      (runSkillScannerApi {} (FetchBehaviour.httpResponse 200 "" (some {}))
          "http://localhost:8000").analyzersUsed =
        some (executedAnalyzersOf {}) :=
  ⟨by decide,
    (analyzer_normalization_union " STATIC " {}).1 (by decide),
    by omega,
    ((analyzer_normalization_union " STATIC " {}).2.2.2.2 {}
      "http://localhost:8000" "" 200 (by omega) (by omega)).1⟩

/-- C6: for every endpoint behaviour `runSkillScanner` returns a structured
`ScanResult` (it is a total function; every `catch` of the source is a
constructor case): a non-success HTTP status gives `available := true`,
`status := ERROR` with the numeric status and response body in the error
text; an unparsable body gives `available := true`, `status := ERROR`; the
abort of the 120-second timeout gives `available := true`, `status := ERROR`
with a timeout message; any other transport failure gives
`available := false`; and no resolvable endpoint gives `available := false`
with the remediation instructions in the error text. -/
theorem scanner_error_taxonomy (cfg : ClientConfig) (endpoint : String)
    (b : FetchBehaviour) :
    (runSkillScanner cfg "" b =
      { available := false, error := some uvxRemediationText }) ∧
    (endpoint ≠ "" →
      (∀ (status : Nat) (textBody : String) (jsonBody : Option WireResponse),
        ¬(200 ≤ status ∧ status < 300) →
        runSkillScanner cfg endpoint
            (FetchBehaviour.httpResponse status textBody jsonBody) =
          { available := true
            status := some ScanStatus.ERROR
            error := some ("API returned " ++ toString status ++ ": " ++
              textBody) }) ∧
      (∀ (status : Nat) (textBody : String), 200 ≤ status ∧ status < 300 →
        runSkillScanner cfg endpoint
            (FetchBehaviour.httpResponse status textBody none) =
          { available := true
            status := some ScanStatus.ERROR
            error := some ("Skill Scanner API returned invalid JSON from " ++
              scanUrl cfg endpoint) }) ∧
      (∀ (status : Nat) (textBody : String) (parsed : WireResponse),
        200 ≤ status ∧ status < 300 →
        (runSkillScanner cfg endpoint
            (FetchBehaviour.httpResponse status textBody (some parsed))).available
          = true) ∧
      (runSkillScanner cfg endpoint FetchBehaviour.abortTimeout =
        { available := true
          status := some ScanStatus.ERROR
          error := some "Skill Scanner API request timed out" }) ∧
      (∀ msg : String,
        runSkillScanner cfg endpoint (FetchBehaviour.networkError msg) =
          { available := false
            error := some ("Skill Scanner API unreachable at " ++ endpoint ++
              ": " ++ msg) })) := by
  refine ⟨by simp [runSkillScanner], fun hne => ⟨?_, ?_, ?_, ?_, ?_⟩⟩
  · intro status textBody jsonBody h
    unfold runSkillScanner
    rw [if_neg hne]
    simp only [runSkillScannerApi]
    rw [if_pos h]
  · intro status textBody h
    unfold runSkillScanner
    rw [if_neg hne]
    simp only [runSkillScannerApi]
    rw [if_neg (not_not_intro h)]
  · intro status textBody parsed h
    unfold runSkillScanner
    rw [if_neg hne]
    simp only [runSkillScannerApi]
    rw [if_neg (not_not_intro h)]
    rfl
  · unfold runSkillScanner
    rw [if_neg hne]
    rfl
  · intro msg
    unfold runSkillScanner
    rw [if_neg hne]
    rfl

/-- Witness for C6: a 500 response from a non-empty endpoint is classified as
`available := true`, `status := ERROR` with the status and body in the error
text. -/
theorem scanner_error_taxonomy_witness :
    (("http://localhost:8000" : String) ≠ "") ∧
      ¬(200 ≤ 500 ∧ 500 < 300) ∧
      runSkillScanner {} "http://localhost:8000"
          (FetchBehaviour.httpResponse 500 "internal error" none) =
        { available := true
          status := some ScanStatus.ERROR
          error := some ("API returned " ++ toString 500 ++ ": " ++
            "internal error") } :=
  ⟨by decide, by omega,
    ((scanner_error_taxonomy {} "http://localhost:8000"
        FetchBehaviour.abortTimeout).2 (by decide)).1 500 "internal error" none
      (by omega)⟩

/-! ## The launcher resolver (src/scanner/uv-resolver.ts)

Filesystem and child-process probes are environment oracles: `fileExists`
models `existsSync`, `commandOk c` models `spawnSync(c, ["--version"],
{timeout: 5000, shell: false})` exiting cleanly, and `lookupOutput`
models the trimmed non-empty stdout lines of the `which`/`where` lookup.
`joinPath` models `path.join` with the `/` separator (counterexamples are
instantiated on a posix platform).  An environment variable that is unset or
empty (falsy in JavaScript) is `none`. -/

structure ScannerLauncher where
  command : String
  preArgs : List String
deriving DecidableEq, Repr

structure ResolverEnv where
  uvxPathVar : Option String := none
  uvPathVar : Option String := none
  isWin32 : Bool := false
  userProfile : Option String := none
  pathDirs : List String := []
  fileExists : String → Bool := fun _ => false
  commandOk : String → Bool := fun _ => false
  lookupOutput : String → List String := fun _ => []

def joinPath (dir file : String) : String := dir ++ "/" ++ file

/-- `collectCandidatesFromPath` (src/scanner/uv-resolver.ts lines 10–27). -/
def collectCandidatesFromPath (env : ResolverEnv)
    (executableNames : List String) : List String :=
  (env.pathDirs.map (fun rawDir =>
    if jsTrim rawDir = "" then []
    else executableNames.filterMap (fun n =>
      if env.fileExists (joinPath (jsTrim rawDir) n) then
        some (joinPath (jsTrim rawDir) n)
      else none))).flatten

/-- `[...new Set(candidates)]`: first-occurrence deduplication. -/
def dedupStrings (l : List String) : List String :=
  l.foldl (fun acc x => if x ∈ acc then acc else acc ++ [x]) []

def localBinDir (up : String) : String := joinPath (joinPath up ".local") "bin"

/-- `resolveUvxCommandCandidates` (src/scanner/uv-resolver.ts lines 50–77). -/
def resolveUvxCommandCandidates (env : ResolverEnv) : List String :=
  dedupStrings
    ((match env.uvxPathVar with | some p => [p] | none => []) ++ ["uvx"] ++
      (if env.isWin32 then
        match env.userProfile with
        | some up => [joinPath (localBinDir up) "uvx.exe",
            joinPath (localBinDir up) "uvx.cmd", joinPath (localBinDir up) "uvx.bat"]
        | none => []
        else []) ++
      collectCandidatesFromPath env
        (if env.isWin32 then ["uvx.exe", "uvx.cmd", "uvx.bat", "uvx"]
          else ["uvx"]) ++
      env.lookupOutput "uvx")

/-- `resolveUvCommandCandidates` (src/scanner/uv-resolver.ts lines 79–106). -/
def resolveUvCommandCandidates (env : ResolverEnv) : List String :=
  dedupStrings
    ((match env.uvPathVar with | some p => [p] | none => []) ++ ["uv"] ++
      (if env.isWin32 then
        match env.userProfile with
        | some up => [joinPath (localBinDir up) "uv.exe",
            joinPath (localBinDir up) "uv.cmd", joinPath (localBinDir up) "uv.bat"]
        | none => []
        else []) ++
      collectCandidatesFromPath env
        (if env.isWin32 then ["uv.exe", "uv.cmd", "uv.bat", "uv"] else ["uv"]) ++
      env.lookupOutput "uv")

/-- `commandAvailable` (src/scanner/uv-resolver.ts lines 108–118). -/
def commandAvailable (env : ResolverEnv) (command : String) : Bool :=
  env.commandOk command

/-- `resolveScannerLauncher` (src/scanner/uv-resolver.ts lines 120–134): the
uvx search, then the same search for `uv` with the extra leading argument
`"x"`. -/
def resolveScannerLauncher (env : ResolverEnv) : Option ScannerLauncher :=
  match (resolveUvxCommandCandidates env).find? (commandAvailable env) with
  | some c => some ⟨c, []⟩
  | none =>
      match (resolveUvCommandCandidates env).find? (commandAvailable env) with
      | some c => some ⟨c, ["x"]⟩
      | none => none

/-! ## The sidecar lifecycle (`src/scanner/lifecycle.ts`, the unnamed
lifecycle source file)

A single sequential call of `ensureScannerApi` is embedded with the
module-level state passed explicitly and the outcomes of the awaited health
checks and synchronous probes given as oracles.  `managedApiStarting` is
`Option Bool`: `none` models the cleared slot, `some b` a stored promise
that has (by the time a later sequential call reads it) resolved with `b`.
The `exit`/`error` handlers registered on the child fire outside any call
and are not part of the single-call model.  Spawned processes are recorded
in the returned list. -/

structure ChildProcess where
  killed : Bool
  exitCode : Option Int
deriving DecidableEq, Repr

structure LifecycleState where
  managedApiProcess : Option ChildProcess
  managedApiReady : Bool
  managedApiStarting : Option Bool
deriving DecidableEq, Repr

def initialLifecycleState : LifecycleState :=
  { managedApiProcess := none, managedApiReady := false,
    managedApiStarting := none }

structure SpawnRecord where
  command : String
  args : List String
  shell : Bool
deriving DecidableEq, Repr

structure LifecycleConfig where
  skillScannerApiUrl : String := ""
  scannerApiPort : Nat := 8000
  uvxPathVar : Option String := none
  isWin32 : Bool := false
  userProfile : Option String := none
  localBinUvxExists : Bool := false
  commandOk : String → Bool := fun _ => false
  externalHealthy : Bool := false
  readyCheckHealthy : Bool := false
  portCheckHealthy : Bool := false
  startupBecomesReady : Bool := false

/-- `MANAGED_API_URL` (lifecycle line 14). -/
def managedApiUrl (cfg : LifecycleConfig) : String :=
  "http://localhost:" ++ toString cfg.scannerApiPort

/-- The inline uvx candidate list of the auto-start step (lifecycle
lines 87–103): `UVX_PATH` if set, the bare `uvx`, and on win32 the per-user
install dir's `uvx.exe` when it exists. -/
def uvxCommandCandidates (cfg : LifecycleConfig) : List String :=
  (match cfg.uvxPathVar with | some p => [p] | none => []) ++ ["uvx"] ++
    (if cfg.isWin32 then
      match cfg.userProfile with
      | some up =>
          if cfg.localBinUvxExists then [joinPath (localBinDir up) "uvx.exe"]
          else []
      | none => []
      else [])

/-- The probe loop of lifecycle lines 105–116 (`spawnSync candidate
--version`, clean exit). -/
def findUvxCommand (cfg : LifecycleConfig) : Option String :=
  (uvxCommandCandidates cfg).find? (fun c => cfg.commandOk c)

/-- The argument vector of the spawn call (lifecycle lines 126–139). -/
def scannerSpawnArgs (cfg : LifecycleConfig) : List String :=
  ["--from", "cisco-ai-skill-scanner", "skill-scanner-api", "--port",
    toString cfg.scannerApiPort]

/-- The async auto-start IIFE (lifecycle lines 83–195), returning
(result, completedSynchronously, new state, spawned processes).  When no
uvx candidate validates, the body returns `false` without reaching an
`await`, so it completes synchronously; otherwise the body spawns the child,
stores it in `managedApiProcess`, and suspends at `await waitForApiReady`,
after which it either marks the state ready (success) or kills and clears
the child (timeout). -/
def autoStartAttempt (cfg : LifecycleConfig) (st : LifecycleState) :
    Bool × Bool × LifecycleState × List SpawnRecord :=
  match findUvxCommand cfg with
  | none => (false, true, st, [])
  | some uvxCommand =>
      if cfg.startupBecomesReady then
        (true, false,
          { st with
            managedApiProcess := some { killed := false, exitCode := none }
            managedApiReady := true },
          [⟨uvxCommand, scannerSpawnArgs cfg, false⟩])
      else
        (false, false, { st with managedApiProcess := none },
          [⟨uvxCommand, scannerSpawnArgs cfg, false⟩])

/-- The guard of lifecycle step 2 (lines 58–63): a ready flag plus a live
process handle. -/
def managedAlive (st : LifecycleState) : Bool :=
  st.managedApiReady &&
    (match st.managedApiProcess with
      | some p => !p.killed && p.exitCode == none
      | none => false)

/-- Steps 3–5 of `ensureScannerApi` (lifecycle lines 70–198).  Step 3: a
non-`none` `managedApiStarting` is awaited and its result combined with the
current ready flag.  Step 4: adopt an out-of-band healthy listener.  Step 5:
run the auto-start attempt; per JavaScript evaluation order the right-hand
side of `managedApiStarting = (async () => ...)()` runs synchronously up to
the body's first `await`, so a body that completes synchronously (no
launcher found) has its `finally { managedApiStarting = null }` overwritten
by the assignment of the already-resolved promise — the slot keeps
`some result`; a body that suspends is assigned first, and its `finally`
clears the slot to `none` before the outer `await` returns. -/
def ensureScannerApiTail (cfg : LifecycleConfig) (st : LifecycleState) :
    String × LifecycleState × List SpawnRecord :=
  match st.managedApiStarting with
  | some ok => ((if ok && st.managedApiReady then managedApiUrl cfg else ""), st, [])
  | none =>
      if cfg.portCheckHealthy then
        (managedApiUrl cfg, { st with managedApiReady := true }, [])
      else
        match autoStartAttempt cfg st with
        | (ok, completedSync, st2, spawns) =>
            ((if ok then managedApiUrl cfg else ""),
              { st2 with managedApiStarting :=
                  if completedSync then some ok else none },
              spawns)

/-- `ensureScannerApi` (lifecycle lines 47–199). -/
def ensureScannerApi (cfg : LifecycleConfig) (st : LifecycleState) :
    String × LifecycleState × List SpawnRecord :=
  if cfg.skillScannerApiUrl ≠ "" then
    if cfg.externalHealthy then (cfg.skillScannerApiUrl, st, [])
    else ("", st, [])
  else if managedAlive st then
    if cfg.readyCheckHealthy then (managedApiUrl cfg, st, [])
    else
      ensureScannerApiTail cfg
        { managedApiProcess := none, managedApiReady := false,
          managedApiStarting := st.managedApiStarting }
  else ensureScannerApiTail cfg st

/-! ## Claim theorems for the supervisor -/

/-- A configured healthy external endpoint. -/
def externalCfg : LifecycleConfig :=
  { skillScannerApiUrl := "http://scanner.local:9000", externalHealthy := true }

/-- An environment with no working launcher at all (every probe fails). -/
def noLauncherCfg : LifecycleConfig := {}

/-- An environment where every launcher probe succeeds and a spawned server
becomes healthy within the startup deadline. -/
def uvxOkCfg : LifecycleConfig :=
  { commandOk := fun _ => true, startupBecomesReady := true }

/-- An environment where only `uv --version` succeeds (the uvx probe fails
everywhere) — the scenario of the repository's lifecycle test "falls back to
uv x when uvx binary is unavailable". -/
def uvOnlyCfg : LifecycleConfig :=
  { commandOk := fun c => c == "uv", startupBecomesReady := true }

/-- The same uv-only environment for the resolver. -/
def uvOnlyResolverEnv : ResolverEnv := { commandOk := fun c => c == "uv" }

/-- The state left behind by a synchronously failed startup attempt: the
`Starting` slot still holds the promise resolved with `false`. -/
def wedgedState : LifecycleState :=
  { managedApiProcess := none, managedApiReady := false,
    managedApiStarting := some false }

/-- C5: whenever an external endpoint is configured, `ensureScannerApi`
returns it if the health check succeeds and the empty string otherwise, and
in this mode it performs no state transition whatsoever (no move toward
`Starting` or `Ready`, no process killed or adopted) and spawns nothing. -/
theorem external_mode_no_spawn (cfg : LifecycleConfig) (st : LifecycleState)
    (h : cfg.skillScannerApiUrl ≠ "") :
    ensureScannerApi cfg st =
      ((if cfg.externalHealthy then cfg.skillScannerApiUrl else ""), st, []) := by
  unfold ensureScannerApi
  rw [if_pos h]
  by_cases hh : cfg.externalHealthy <;> simp [hh]

/-- Witness for C5: a healthy external endpoint is returned unchanged from
the idle state, with no spawn and no state change. -/
theorem external_mode_no_spawn_witness :
    externalCfg.skillScannerApiUrl ≠ "" ∧
      ensureScannerApi externalCfg initialLifecycleState =
        ((if externalCfg.externalHealthy then externalCfg.skillScannerApiUrl
          else ""), initialLifecycleState, []) :=
  ⟨by decide,
    external_mode_no_spawn externalCfg initialLifecycleState (by decide)⟩

/-- C4 (code bug): in the launcher-not-found path the auto-start body
completes synchronously, so its `finally { managedApiStarting = null }` is
overwritten by the outer assignment of the already-resolved promise: after
the call the `Starting` slot still holds the resolved promise
(`some false`).  Every later call then takes the step-3 branch and returns
`""` without clearing the slot and without spawning — even in an environment
where uvx is installed and a fresh start would succeed (the third conjunct
shows the identical configuration starting fine from a clean state).  The
claimed invariant "the `Starting` slot is cleared on every path" fails. -/
theorem starting_slot_wedged :
    ensureScannerApi noLauncherCfg initialLifecycleState =
      ("", wedgedState, []) ∧
    ensureScannerApi uvxOkCfg wedgedState = ("", wedgedState, []) ∧
    ensureScannerApi uvxOkCfg initialLifecycleState =
      ("http://localhost:8000",
        { managedApiProcess := some { killed := false, exitCode := none },
          managedApiReady := true, managedApiStarting := none },
        [⟨"uvx", ["--from", "cisco-ai-skill-scanner", "skill-scanner-api",
          "--port", "8000"], false⟩]) :=
  ⟨rfl, rfl, rfl⟩

/-- C8 (code bug): in an environment where the uvx probe fails everywhere
but the uv probe succeeds, `resolveScannerLauncher` — which implements the
uv fallback with the extra leading argument `"x"` — does find a launcher,
yet `ensureScannerApi` never calls it: its inline uvx-only search fails and
the call returns `""` with no process spawned. -/
theorem uv_fallback_not_wired :
    resolveScannerLauncher uvOnlyResolverEnv = some ⟨"uv", ["x"]⟩ ∧
      ensureScannerApi uvOnlyCfg initialLifecycleState =
        ("", wedgedState, []) :=
  ⟨rfl, rfl⟩

/-- C9 counterexample: on a successful managed start at the default port the
spawned argument vector is
`["--from", "cisco-ai-skill-scanner", "skill-scanner-api", "--port", "8000"]`,
which is not the claimed four-element vector
`[packageSpec, sidecarSubcommand, "--port", port]`. -/
theorem spawn_args_counterexample :
    (ensureScannerApi uvxOkCfg initialLifecycleState).2.2 =
      [⟨"uvx", ["--from", "cisco-ai-skill-scanner", "skill-scanner-api",
        "--port", "8000"], false⟩] ∧
    (["--from", "cisco-ai-skill-scanner", "skill-scanner-api", "--port",
        "8000"] : List String) ≠
      ["cisco-ai-skill-scanner", "skill-scanner-api", "--port", "8000"] :=
  ⟨rfl, by decide⟩

/-- C9 as amended: whenever `ensureScannerApi` reaches the spawn step (no
external URL, no live ready process, no in-flight attempt, port not already
healthy, a uvx command found), the spawned command receives exactly the
argument vector `["--from", packageSpec, sidecarSubcommand, "--port", port]`
— the claimed vector with the `--from` flag in front of the package spec —
passed literally with the shell disabled. -/
theorem spawn_args_amended (cfg : LifecycleConfig) (st : LifecycleState)
    (hurl : cfg.skillScannerApiUrl = "")
    (halive : managedAlive st = false)
    (hstart : st.managedApiStarting = none)
    (hport : cfg.portCheckHealthy = false)
    (cmd : String) (hcmd : findUvxCommand cfg = some cmd) :
    (ensureScannerApi cfg st).2.2 =
      [⟨cmd, ["--from", "cisco-ai-skill-scanner", "skill-scanner-api",
        "--port", toString cfg.scannerApiPort], false⟩] := by
  unfold ensureScannerApi
  rw [if_neg (by simp [hurl]), if_neg (by simp [halive])]
  unfold ensureScannerApiTail
  rw [hstart]
  simp only []
  rw [if_neg (by simp [hport])]
  unfold autoStartAttempt
  rw [hcmd]
  by_cases hr : cfg.startupBecomesReady <;>
    simp [hr, scannerSpawnArgs]

/-- Witness for the amended C9 at a concrete configuration. -/
theorem spawn_args_amended_witness :
    uvxOkCfg.skillScannerApiUrl = "" ∧
      managedAlive initialLifecycleState = false ∧
      initialLifecycleState.managedApiStarting = none ∧
      uvxOkCfg.portCheckHealthy = false ∧
      findUvxCommand uvxOkCfg = some "uvx" ∧
      (ensureScannerApi uvxOkCfg initialLifecycleState).2.2 =
        [⟨"uvx", ["--from", "cisco-ai-skill-scanner", "skill-scanner-api",
          "--port", toString uvxOkCfg.scannerApiPort], false⟩] :=
  ⟨rfl, rfl, rfl, rfl, rfl,
    spawn_args_amended uvxOkCfg initialLifecycleState rfl rfl rfl rfl
      "uvx" rfl⟩
